import Mathlib

/-!
Shallow embedding of the todo-collection management module of the repository
(source file: the todo utility / localStorage-management module).

Modelling conventions:
* Timestamps (`new Date().toISOString()` in the source) are modelled as `Nat`
  values passed in explicitly as a `now` parameter; `new Date(x).getTime()`
  is the identity on that value.  An ISO date string is never the empty
  string, so a present date field is always truthy in JS; the `Nat` model
  reflects that by testing only for presence (`Option`).
* `uuidv4()` is nondeterministic fresh-id generation; it is modelled by an
  explicit `fresh : String` argument (or a supply `freshIds : Nat → String`
  where several ids may be drawn).  Uniqueness of generated uuids is a
  hypothesis of the relevant theorems, never assumed silently.
* `JSON.parse ∘ JSON.stringify` on an array of records is the identity, so
  the export payload is modelled as the list of raw (partial) records.
* `localStorage` writes (`saveTodos`) are an external side effect returning
  the same list; the pure list transformations are what the claims concern.
* JS `throw` is modelled with `Except String`.
* JS objects are open maps; a "partial fields" argument (`updates`) is
  modelled as a structure of `Option` fields, one per property the module
  ever reads or spreads, including `id` and `createdAt`, since the spread
  `{...todo, ...updates, ...}` copies any property present in `updates`.
-/

/-- Todo record, mirroring the object literal built by `createTodo`. -/
structure Todo where
  id : String
  text : String
  completed : Bool
  category : String
  priority : String
  createdAt : Nat
  updatedAt : Nat
  dueDate : Option Nat
  tags : List String
  description : String
deriving DecidableEq

/-- Partial-fields object passed to `updateTodo` / `batchUpdateTodos`.
A field is `some v` when the JS object has that property.  The spread
`{...todo, ...updates}` copies every present property, `id` included. -/
structure Updates where
  id : Option String
  text : Option String
  completed : Option Bool
  category : Option String
  priority : Option String
  dueDate : Option (Option Nat)
  tags : Option (List String)
  description : Option String
  createdAt : Option Nat
deriving DecidableEq

/-- Raw record as found in a parsed JSON payload (stored snapshot or import
file): every property may be absent. -/
structure RawTodo where
  id : Option String
  text : Option String
  completed : Option Bool
  category : Option String
  priority : Option String
  dueDate : Option (Option Nat)
  tags : Option (List String)
  description : Option String
  createdAt : Option Nat
  updatedAt : Option Nat
deriving DecidableEq

/-- JS `String.prototype.trim`: drop leading and trailing whitespace.
Implemented over the character list so that it evaluates by `decide`. -/
def jsTrim (s : String) : String :=
  String.mk (((s.data.dropWhile Char.isWhitespace).reverse.dropWhile Char.isWhitespace).reverse)

/-- Source `createTodo(text, category = 'general', priority = 'medium')`:
builds the default record.  `fresh` stands for the `uuidv4()` result and
`now` for `new Date().toISOString()`; call sites supply the JS defaults. -/
def createTodo (text category priority : String) (fresh : String) (now : Nat) : Todo :=
  { id := fresh
    text := jsTrim text
    completed := false
    category := category
    priority := priority
    createdAt := now
    updatedAt := now
    dueDate := none
    tags := []
    description := "" }

/-- Source `addTodo`: throws when `!text || !text.trim()`, otherwise prepends
the newly created record. -/
def addTodo (todos : List Todo) (text category priority : String)
    (fresh : String) (now : Nat) : Except String (List Todo) :=
  if text = "" ∨ jsTrim text = "" then
    Except.error ("Todo text cannot be empty")
  else
    Except.ok (createTodo text category priority fresh now :: todos)

/-- Result of `{...todo, ...updates, updatedAt: now, text: updates.text ?
updates.text.trim() : todo.text}` from `updateTodo`.  The explicit `text`
property comes after the spreads, so `updates.text` is consulted only
through the truthiness test (`""` is falsy in JS). -/
def applyUpdates (todo : Todo) (u : Updates) (now : Nat) : Todo :=
  { id := u.id.getD todo.id
    text := match u.text with
            | some t => if t = "" then todo.text else jsTrim t
            | none => todo.text
    completed := u.completed.getD todo.completed
    category := u.category.getD todo.category
    priority := u.priority.getD todo.priority
    dueDate := u.dueDate.getD todo.dueDate
    tags := u.tags.getD todo.tags
    description := u.description.getD todo.description
    createdAt := u.createdAt.getD todo.createdAt
    updatedAt := now }

/-- Source `updateTodo(todos, id, updates)`. -/
def updateTodo (todos : List Todo) (id : String) (u : Updates) (now : Nat) : List Todo :=
  todos.map (fun todo => if todo.id = id then applyUpdates todo u now else todo)

/-- Updates object `{ completed: b }`. -/
def completedUpdates (b : Bool) : Updates :=
  { id := none, text := none, completed := some b, category := none,
    priority := none, dueDate := none, tags := none, description := none,
    createdAt := none }

/-- Source `toggleTodo(todos, id)`: delegates to `updateTodo` with
`{ completed: !todos.find(t => t.id === id)?.completed }`; when the id is
absent, `!undefined` evaluates to `true`. -/
def toggleTodo (todos : List Todo) (id : String) (now : Nat) : List Todo :=
  updateTodo todos id
    (completedUpdates
      (match todos.find? (fun todo => todo.id == id) with
       | some todo => !todo.completed
       | none => true))
    now

/-- Source `deleteTodo(todos, id)`. -/
def deleteTodo (todos : List Todo) (id : String) : List Todo :=
  todos.filter (fun todo => !(todo.id == id))

/-- Source `deleteTodos(todos, ids)`: drops every record whose id occurs in
`ids` (`ids.includes(todo.id)`). -/
def deleteTodos (todos : List Todo) (ids : List String) : List Todo :=
  todos.filter (fun todo => !(ids.contains todo.id))

/-- Source `clearCompleted(todos)`. -/
def clearCompleted (todos : List Todo) : List Todo :=
  todos.filter (fun todo => !todo.completed)

/-- Source `toggleAllTodos(todos, completed = true)`. -/
def toggleAllTodos (todos : List Todo) (completed : Bool) (now : Nat) : List Todo :=
  todos.map (fun todo => { todo with completed := completed, updatedAt := now })

/-- Source `duplicateTodo(todos, id)`: throws when the id is absent,
otherwise prepends a copy with fresh id, suffixed text, `completed` reset
and fresh timestamps. -/
def duplicateTodo (todos : List Todo) (id : String) (fresh : String) (now : Nat) :
    Except String (List Todo) :=
  match todos.find? (fun todo => todo.id == id) with
  | none => Except.error ("Todo not found")
  | some todo =>
      Except.ok
        ({ todo with
            id := fresh
            text := todo.text ++ " (Copy)"
            completed := false
            createdAt := now
            updatedAt := now } :: todos)

/-- Result of `{...todo, ...updates, updatedAt: now}` from
`batchUpdateTodos` (note: no trimming special case here, unlike
`updateTodo`). -/
def applyBatchUpdates (todo : Todo) (u : Updates) (now : Nat) : Todo :=
  { id := u.id.getD todo.id
    text := u.text.getD todo.text
    completed := u.completed.getD todo.completed
    category := u.category.getD todo.category
    priority := u.priority.getD todo.priority
    dueDate := u.dueDate.getD todo.dueDate
    tags := u.tags.getD todo.tags
    description := u.description.getD todo.description
    createdAt := u.createdAt.getD todo.createdAt
    updatedAt := now }

/-- Source `batchUpdateTodos(todos, ids, updates)`. -/
def batchUpdateTodos (todos : List Todo) (ids : List String) (u : Updates) (now : Nat) :
    List Todo :=
  todos.map (fun todo => if ids.contains todo.id then applyBatchUpdates todo u now else todo)

/-- Source `filterTodos(todos, filter)`: the `switch` returns the active or
completed sublist, and both the explicit `'all'` case and the `default`
case return the list itself. -/
def filterTodos (todos : List Todo) (filter : String) : List Todo :=
  if filter = "active" then todos.filter (fun todo => !todo.completed)
  else if filter = "completed" then todos.filter (fun todo => todo.completed)
  else todos

/-- Source priority ordinal table `{ high: 3, medium: 2, low: 1 }` with
`|| 0` for unknown values. -/
def priorityOrder (p : String) : Nat :=
  if p = "high" then 3
  else if p = "medium" then 2
  else if p = "low" then 1
  else 0

/-- JS comparator body `aValue > bValue ? 1 : aValue < bValue ? -1 : 0`
expressed as an `Ordering`. -/
def jsCompare {α : Type} [LinearOrder α] (a b : α) : Ordering :=
  if b < a then Ordering.gt else if a < b then Ordering.lt else Ordering.eq

/-- Numeric value `completed ? 1 : 0` used by the `completed` sort key. -/
def completedValue (b : Bool) : Nat :=
  if b then 1 else 0

/-- Ascending comparison of two todos under a sort key, mirroring the
`switch (sortBy)` of `sortTodos` (unrecognised keys fall through to
`createdAt`). -/
def todoCompareAsc (sortBy : String) (a b : Todo) : Ordering :=
  if sortBy = "text" then jsCompare a.text.toLower b.text.toLower
  else if sortBy = "priority" then jsCompare (priorityOrder a.priority) (priorityOrder b.priority)
  else if sortBy = "category" then jsCompare a.category.toLower b.category.toLower
  else if sortBy = "completed" then
    jsCompare (completedValue a.completed) (completedValue b.completed)
  else if sortBy = "dueDate" then jsCompare (a.dueDate.getD 0) (b.dueDate.getD 0)
  else if sortBy = "updatedAt" then jsCompare a.updatedAt b.updatedAt
  else jsCompare a.createdAt b.createdAt

/-- Full comparator of `sortTodos`: ascending when `order === 'asc'`,
otherwise the reversed comparison. -/
def todoComparator (sortBy order : String) (a b : Todo) : Ordering :=
  if order = "asc" then todoCompareAsc sortBy a b
  else (todoCompareAsc sortBy a b).swap

/-- Non-strict "sorts no later than" relation induced by the comparator:
the JS engine places `a` before `b` (or keeps ties in input order) exactly
when the comparator does not return a positive number. -/
def sortLe (sortBy order : String) (a b : Todo) : Prop :=
  todoComparator sortBy order a b ≠ Ordering.gt

instance (sortBy order : String) : DecidableRel (sortLe sortBy order) := by
  intro a b
  unfold sortLe
  infer_instance

/-- Source `sortTodos(todos, sortBy = 'createdAt', order = 'desc')`:
`[...todos].sort(comparator)`.  ECMAScript `Array.prototype.sort` is
required to be stable, so it is modelled by a stable sorting algorithm
(insertion sort) under the comparator-induced relation. -/
def sortTodos (todos : List Todo) (sortBy order : String) : List Todo :=
  todos.insertionSort (sortLe sortBy order)

/-- Statistics object returned by `getTodoStats`.  The JS accumulator
objects `byCategory` / `byPriority` are association lists in key
insertion order. -/
structure TodoStats where
  total : Nat
  completed : Nat
  active : Nat
  overdue : Nat
  completionRate : Nat
  byCategory : List (String × Nat)
  byPriority : List (String × Nat)
deriving DecidableEq

/-- One step of `acc[key] = (acc[key] || 0) + 1` on an association list. -/
def bumpCount : List (String × Nat) → String → List (String × Nat)
  | [], key => [(key, 1)]
  | (k, n) :: rest, key =>
      if k = key then (k, n + 1) :: rest else (k, n) :: bumpCount rest key

/-- Source `getTodoStats(todos)`; `now` stands for `new Date()` in the
overdue test, and `Math.round((completed / total) * 100)` is the exact
half-up rounding `(200 * completed + total) / (2 * total)` in `Nat`
arithmetic. -/
def getTodoStats (todos : List Todo) (now : Nat) : TodoStats :=
  let total := todos.length
  let completed := (todos.filter (fun todo => todo.completed)).length
  { total := total
    completed := completed
    active := total - completed
    overdue :=
      (todos.filter (fun todo =>
        match todo.dueDate with
        | some d => !todo.completed && decide (d < now)
        | none => false)).length
    completionRate := if 0 < total then (200 * completed + total) / (2 * total) else 0
    byCategory := todos.foldl (fun acc todo => bumpCount acc todo.category) []
    byPriority := todos.foldl (fun acc todo => bumpCount acc todo.priority) [] }

/-- Outcome of reading the storage slot in `loadTodos`:
the read may throw, return `null`, return a string that fails
`JSON.parse`, parse to a non-array value (then `.map` throws and is
caught), or parse to an array of raw records. -/
inductive StoredValue where
  | readError
  | absent
  | notJson
  | jsonNonArray
  | jsonArray (raws : List RawTodo)
deriving DecidableEq

/-- Normalisation `{...createTodo(''), ...todo, createdAt: todo.createdAt ||
now, updatedAt: todo.updatedAt || now}` applied by `loadTodos` to each
stored record; `fresh` is the uuid generated by the inner `createTodo('')`
call, used only when the stored record lacks an id. -/
def normalizeLoaded (raw : RawTodo) (fresh : String) (now : Nat) : Todo :=
  { id := raw.id.getD fresh
    text := raw.text.getD ""
    completed := raw.completed.getD false
    category := raw.category.getD "general"
    priority := raw.priority.getD "medium"
    dueDate := raw.dueDate.getD none
    tags := raw.tags.getD []
    description := raw.description.getD ""
    createdAt := raw.createdAt.getD now
    updatedAt := raw.updatedAt.getD now }

/-- Source `loadTodos()`: every failure path of the `try`/`catch` (missing
key, storage read error, parse error, non-array payload) returns `[]`;
a parsed array is normalised element-wise. -/
def loadTodos (stored : StoredValue) (freshIds : Nat → String) (now : Nat) : List Todo :=
  match stored with
  | StoredValue.jsonArray raws =>
      raws.mapIdx (fun i raw => normalizeLoaded raw (freshIds i) now)
  | _ => []

/-- View of a full record as a raw JSON record: serialising a `Todo` with
`JSON.stringify` yields an object with every property present. -/
def Todo.toRaw (t : Todo) : RawTodo :=
  { id := some t.id
    text := some t.text
    completed := some t.completed
    category := some t.category
    priority := some t.priority
    dueDate := some t.dueDate
    tags := some t.tags
    description := some t.description
    createdAt := some t.createdAt
    updatedAt := some t.updatedAt }

/-- Source `exportTodos(todos)`: the downloaded payload is
`JSON.stringify(todos, null, 2)`; modulo JSON serialisation (identity on
records) the payload is the list of raw records. -/
def exportTodos (todos : List Todo) : List RawTodo :=
  todos.map Todo.toRaw

/-- Import filter `todo && typeof todo === 'object' && todo.text`: keeps
records whose `text` property is present and truthy (non-empty). -/
def rawTextTruthy (raw : RawTodo) : Bool :=
  match raw.text with
  | some s => decide (s ≠ "")
  | none => false

/-- Normalisation `{...createTodo(todo.text, todo.category, todo.priority),
...todo, id: todo.id || uuidv4(), createdAt: todo.createdAt || now,
updatedAt: now}` applied by `importTodos` to each kept record.  The spread
of `todo` puts the raw `text` verbatim over the trimmed default; the `id`
truthiness test treats a present empty-string id as missing; `updatedAt`
is unconditionally refreshed. -/
def normalizeImported (raw : RawTodo) (fresh : String) (now : Nat) : Todo :=
  { id := match raw.id with
          | some i => if i = "" then fresh else i
          | none => fresh
    text := raw.text.getD ""
    completed := raw.completed.getD false
    category := raw.category.getD "general"
    priority := raw.priority.getD "medium"
    dueDate := raw.dueDate.getD none
    tags := raw.tags.getD []
    description := raw.description.getD ""
    createdAt := raw.createdAt.getD now
    updatedAt := now }

/-- Source `importTodos`, after the payload has been parsed to an array:
filter to records with truthy text, then normalise each, drawing a fresh
uuid per kept record as needed (`freshIds` is the uuid supply). -/
def importTodos : List RawTodo → (Nat → String) → Nat → List Todo
  | [], _, _ => []
  | raw :: rest, freshIds, now =>
      if rawTextTruthy raw then
        normalizeImported raw (freshIds 0) now ::
          importTodos rest (fun i => freshIds (i + 1)) now
      else
        importTodos rest freshIds now

/-- Pairwise distinctness of the ids of a list of todos. -/
def nodupIds (todos : List Todo) : Prop :=
  (todos.map Todo.id).Nodup

instance (todos : List Todo) : Decidable (nodupIds todos) := by
  unfold nodupIds
  infer_instance

/-- Sample record with id `a`, not completed. -/
def tA : Todo :=
  { id := "a", text := "alpha", completed := false, category := "general",
    priority := "medium", createdAt := 1, updatedAt := 1, dueDate := none,
    tags := [], description := "" }

/-- Sample record with id `b`, completed. -/
def tB : Todo :=
  { id := "b", text := "beta", completed := true, category := "work",
    priority := "high", createdAt := 2, updatedAt := 2, dueDate := none,
    tags := [], description := "" }

/-- Sample record with id `c`, not completed, with a due date. -/
def tC : Todo :=
  { id := "c", text := "gamma", completed := false, category := "personal",
    priority := "low", createdAt := 3, updatedAt := 3, dueDate := some 10,
    tags := [], description := "" }

/-- Sample list of three records, exactly one of them completed. -/
def sample3 : List Todo := [tA, tB, tC]

/-- Sample record with distinct `createdAt` and `updatedAt` values. -/
def tOld : Todo :=
  { id := "x", text := "task", completed := false, category := "general",
    priority := "medium", createdAt := 3, updatedAt := 5, dueDate := none,
    tags := [], description := "" }

/-- Updates object `{ id: 'b' }`: a partial-fields argument carrying an id. -/
def idClashUpdates : Updates :=
  { id := some ("b"), text := none, completed := none, category := none,
    priority := none, dueDate := none, tags := none, description := none,
    createdAt := none }

/-- Updates object `{ text: '' }`: a present but empty text field. -/
def emptyTextUpdates : Updates :=
  { id := none, text := some (""), completed := none, category := none,
    priority := none, dueDate := none, tags := none, description := none,
    createdAt := none }

/-- Updates object `{ text: '  milk  ' }`. -/
def spaceTextUpdates : Updates :=
  { id := none, text := some ("  milk  "), completed := none, category := none,
    priority := none, dueDate := none, tags := none, description := none,
    createdAt := none }

/-- C3: for every list and every text that is non-empty after trimming (and a
fresh uuid not colliding with an existing id), `addTodo` succeeds and returns
the list with the new record prepended: length grows by one, the head is the
new record with `completed = false` and an id not previously present, and
every pre-existing record is unchanged (the tail is the input list itself). -/
theorem addTodo_creates (l : List Todo) (text category priority fresh : String) (now : Nat)
    (htext : jsTrim text ≠ "") (hfresh : fresh ∉ l.map Todo.id) :
    addTodo l text category priority fresh now =
      Except.ok (createTodo text category priority fresh now :: l)
    ∧ (createTodo text category priority fresh now :: l).length = l.length + 1
    ∧ (createTodo text category priority fresh now).completed = false
    ∧ (createTodo text category priority fresh now).id ∉ l.map Todo.id := by
  have hne : ¬ (text = "" ∨ jsTrim text = "") := by
    rintro (rfl | h)
    · exact htext rfl
    · exact htext h
  refine ⟨?_, rfl, rfl, hfresh⟩
  unfold addTodo
  rw [if_neg hne]

/-- Witness for C3 at a concrete input. -/
theorem addTodo_creates_witness :
    addTodo [tA] (" milk ") ("shopping") ("low") ("z") 7 =
      Except.ok (createTodo (" milk ") ("shopping") ("low") ("z") 7 :: [tA])
    ∧ (createTodo (" milk ") ("shopping") ("low") ("z") 7 :: [tA]).length = [tA].length + 1
    ∧ (createTodo (" milk ") ("shopping") ("low") ("z") 7).completed = false
    ∧ (createTodo (" milk ") ("shopping") ("low") ("z") 7).id ∉ [tA].map Todo.id :=
  addTodo_creates [tA] (" milk ") ("shopping") ("low") ("z") 7 (by decide) (by decide)

/-- C4: `addTodo` fails with the validation error exactly when the text is
empty or whitespace-only after trimming; in particular it fails on `""` and
on `"   "`.  In the `Except` model the error branch returns no list at all,
so the caller's list is unchanged in the failure case. -/
theorem addTodo_validation (l : List Todo) (category priority fresh : String) (now : Nat) :
    (∀ text, addTodo l text category priority fresh now =
        Except.error ("Todo text cannot be empty") ↔ jsTrim text = "")
    ∧ addTodo l ("") category priority fresh now = Except.error ("Todo text cannot be empty")
    ∧ addTodo l ("   ") category priority fresh now =
        Except.error ("Todo text cannot be empty") := by
  refine ⟨?_, ?_, ?_⟩
  · intro text
    unfold addTodo
    by_cases h : text = "" ∨ jsTrim text = ""
    · rw [if_pos h]
      have htrim : jsTrim text = "" := by
        rcases h with rfl | h
        · rfl
        · exact h
      simp [htrim]
    · rw [if_neg h]
      constructor
      · intro hcontra
        simp at hcontra
      · intro htrim
        exact absurd (Or.inr htrim) h
  · unfold addTodo
    rw [if_pos (Or.inl rfl)]
  · unfold addTodo
    rw [if_pos (Or.inr (by decide))]

/-- Witness for C4 at concrete inputs. -/
theorem addTodo_validation_witness :
    addTodo [tA] ("  ") ("general") ("medium") ("z") 3 =
      Except.error ("Todo text cannot be empty")
    ∧ addTodo [tA] ("") ("general") ("medium") ("z") 3 =
      Except.error ("Todo text cannot be empty") :=
  ⟨((addTodo_validation [tA] ("general") ("medium") ("z") 3).1 ("  ")).mpr (by decide),
   (addTodo_validation [tA] ("general") ("medium") ("z") 3).2.1⟩

/-- C6: for an id not present in the list, `deleteTodo`, `updateTodo` and
`toggleTodo` all return the list unchanged. -/
theorem missing_id_noop (l : List Todo) (id : String) (h : id ∉ l.map Todo.id)
    (u : Updates) (now : Nat) :
    deleteTodo l id = l ∧ updateTodo l id u now = l ∧ toggleTodo l id now = l := by
  have hne : ∀ t ∈ l, t.id ≠ id := by
    intro t ht heq
    exact h (heq ▸ List.mem_map_of_mem Todo.id ht)
  have hupd : ∀ u' : Updates, updateTodo l id u' now = l := by
    intro u'
    unfold updateTodo
    have hcongr : ∀ t ∈ l, (if t.id = id then applyUpdates t u' now else t) = t :=
      fun t ht => if_neg (hne t ht)
    rw [List.map_congr_left hcongr]
    exact l.map_id
  refine ⟨?_, hupd u, hupd _⟩
  unfold deleteTodo
  apply List.filter_eq_self.mpr
  intro t ht
  simp [hne t ht]

/-- Witness for C6 at a concrete input. -/
theorem missing_id_noop_witness :
    deleteTodo [tA, tB] ("zzz") = [tA, tB]
    ∧ updateTodo [tA, tB] ("zzz") idClashUpdates 9 = [tA, tB]
    ∧ toggleTodo [tA, tB] ("zzz") 9 = [tA, tB] :=
  missing_id_noop [tA, tB] ("zzz") (by decide) idClashUpdates 9

/-- C9: `loadTodos` never propagates a read or parse failure: a storage read
error, a missing key, an unparsable payload, and a parsed non-array payload
all yield the empty list, and the function is total (it cannot throw). -/
theorem loadTodos_fails_soft (freshIds : Nat → String) (now : Nat) :
    loadTodos StoredValue.readError freshIds now = []
    ∧ loadTodos StoredValue.absent freshIds now = []
    ∧ loadTodos StoredValue.notJson freshIds now = []
    ∧ loadTodos StoredValue.jsonNonArray freshIds now = [] :=
  ⟨rfl, rfl, rfl, rfl⟩

/-- C10: `filterTodos` with any status other than `active` and `completed`
(including `all`, the empty string, and unrecognised strings) returns the
input list itself, unchanged in content and order. -/
theorem filterTodos_passthrough (l : List Todo) (status : String)
    (h1 : status ≠ "active") (h2 : status ≠ "completed") :
    filterTodos l status = l := by
  unfold filterTodos
  rw [if_neg h1, if_neg h2]

/-- Witness for C10 at concrete inputs. -/
theorem filterTodos_passthrough_witness :
    filterTodos [tA, tB] ("all") = [tA, tB] ∧ filterTodos [tA, tB] ("") = [tA, tB] :=
  ⟨filterTodos_passthrough [tA, tB] ("all") (by decide) (by decide),
   filterTodos_passthrough [tA, tB] ("") (by decide) (by decide)⟩

/-- Helper: `updateTodo` preserves the id sequence when the partial-fields
object carries no `id` property. -/
theorem updateTodo_map_id (l : List Todo) (id : String) (u : Updates) (now : Nat)
    (hu : u.id = none) :
    (updateTodo l id u now).map Todo.id = l.map Todo.id := by
  unfold updateTodo
  rw [List.map_map]
  apply List.map_congr_left
  intro t ht
  by_cases hid : t.id = id
  · simp [Function.comp, hid, applyUpdates, hu]
  · simp [Function.comp, hid]

/-- Helper: `batchUpdateTodos` preserves the id sequence when the
partial-fields object carries no `id` property. -/
theorem batchUpdateTodos_map_id (l : List Todo) (ids : List String) (u : Updates) (now : Nat)
    (hu : u.id = none) :
    (batchUpdateTodos l ids u now).map Todo.id = l.map Todo.id := by
  unfold batchUpdateTodos
  rw [List.map_map]
  apply List.map_congr_left
  intro t ht
  by_cases hid : t.id ∈ ids
  · simp [Function.comp, applyBatchUpdates, hu, hid]
  · simp [Function.comp, hid]

/-- Helper: filtering preserves distinctness of ids. -/
theorem nodupIds_filter (l : List Todo) (p : Todo → Bool) (h : nodupIds l) :
    nodupIds (l.filter p) :=
  List.Nodup.sublist (List.Sublist.map Todo.id (List.filter_sublist l)) h

/-- C1 counterexample: the claim quantifies over arbitrary partial-fields
arguments, but `updateTodo` spreads `...updates` over the record, so an
`updates` object containing an `id` property rewrites the matched record's
id; on the two-element list with ids `a`, `b`, updating `a` with
`{ id: 'b' }` yields the id sequence `b, b` — ids are neither immutable nor
pairwise distinct afterwards. -/
theorem updateTodo_id_clash_counterexample :
    nodupIds [tA, tB]
    ∧ (updateTodo [tA, tB] ("a") idClashUpdates 2).map Todo.id = [("b" : String), ("b" : String)]
    ∧ ¬ nodupIds (updateTodo [tA, tB] ("a") idClashUpdates 2) := by
  refine ⟨by decide, by decide, by decide⟩

/-- C1 (amended): provided the partial-fields argument of `updateTodo` /
`batchUpdateTodos` carries no `id` property, and the uuids generated for
`addTodo` / `duplicateTodo` are not already present, every mutation
operation maps a list with pairwise-distinct ids to a list with
pairwise-distinct ids, and `updateTodo`, `toggleTodo`, `toggleAllTodos` and
`batchUpdateTodos` leave the id sequence (hence every matched record's id)
unchanged. -/
theorem mutation_ops_preserve_nodup_ids (l : List Todo) (h : nodupIds l) :
    (∀ text category priority fresh now res,
        fresh ∉ l.map Todo.id →
        addTodo l text category priority fresh now = Except.ok res → nodupIds res)
    ∧ (∀ id u now, u.id = none →
        (updateTodo l id u now).map Todo.id = l.map Todo.id ∧ nodupIds (updateTodo l id u now))
    ∧ (∀ id now,
        (toggleTodo l id now).map Todo.id = l.map Todo.id ∧ nodupIds (toggleTodo l id now))
    ∧ (∀ id, nodupIds (deleteTodo l id))
    ∧ (∀ ids, nodupIds (deleteTodos l ids))
    ∧ nodupIds (clearCompleted l)
    ∧ (∀ completed now,
        (toggleAllTodos l completed now).map Todo.id = l.map Todo.id
        ∧ nodupIds (toggleAllTodos l completed now))
    ∧ (∀ id fresh now res,
        fresh ∉ l.map Todo.id →
        duplicateTodo l id fresh now = Except.ok res → nodupIds res)
    ∧ (∀ ids u now, u.id = none →
        (batchUpdateTodos l ids u now).map Todo.id = l.map Todo.id
        ∧ nodupIds (batchUpdateTodos l ids u now)) := by
  have hupdate : ∀ id u now, (u : Updates).id = none →
      (updateTodo l id u now).map Todo.id = l.map Todo.id ∧ nodupIds (updateTodo l id u now) := by
    intro id u now hu
    have hmap := updateTodo_map_id l id u now hu
    refine ⟨hmap, ?_⟩
    unfold nodupIds
    rw [hmap]
    exact h
  refine ⟨?_, hupdate, ?_, ?_, ?_, ?_, ?_, ?_, ?_⟩
  · intro text category priority fresh now res hfresh hok
    unfold addTodo at hok
    by_cases hc : text = "" ∨ jsTrim text = ""
    · rw [if_pos hc] at hok
      simp at hok
    · rw [if_neg hc] at hok
      simp only [Except.ok.injEq] at hok
      subst hok
      unfold nodupIds
      rw [List.map_cons]
      exact List.nodup_cons.mpr ⟨hfresh, h⟩
  · intro id now
    exact hupdate id _ now rfl
  · intro id
    exact nodupIds_filter l _ h
  · intro ids
    exact nodupIds_filter l _ h
  · exact nodupIds_filter l _ h
  · intro completed now
    have hmap : (toggleAllTodos l completed now).map Todo.id = l.map Todo.id := by
      unfold toggleAllTodos
      rw [List.map_map]
      apply List.map_congr_left
      intro t ht
      rfl
    refine ⟨hmap, ?_⟩
    unfold nodupIds
    rw [hmap]
    exact h
  · intro id fresh now res hfresh hok
    unfold duplicateTodo at hok
    cases hfind : l.find? (fun todo => todo.id == id) with
    | none =>
        rw [hfind] at hok
        simp at hok
    | some t =>
        rw [hfind] at hok
        simp only [Except.ok.injEq] at hok
        subst hok
        unfold nodupIds
        rw [List.map_cons]
        exact List.nodup_cons.mpr ⟨hfresh, h⟩
  · intro ids u now hu
    have hmap := batchUpdateTodos_map_id l ids u now hu
    refine ⟨hmap, ?_⟩
    unfold nodupIds
    rw [hmap]
    exact h

/-- Witness for C1 (amended) at concrete inputs. -/
theorem mutation_ops_preserve_nodup_ids_witness :
    ((updateTodo [tA, tB] ("a") (completedUpdates true) 2).map Todo.id = [tA, tB].map Todo.id
      ∧ nodupIds (updateTodo [tA, tB] ("a") (completedUpdates true) 2))
    ∧ nodupIds (deleteTodo [tA, tB] ("a")) :=
  ⟨(mutation_ops_preserve_nodup_ids [tA, tB] (by decide)).2.1 ("a") (completedUpdates true) 2 rfl,
   (mutation_ops_preserve_nodup_ids [tA, tB] (by decide)).2.2.2.1 ("a")⟩

/-- C5 counterexample: the claim covers every partial-fields object whose
`text` field is present, but `updates.text` is consulted through a JS
truthiness test, so a present empty-string text is ignored: updating the
record with `{ text: '' }` keeps the old text `alpha` instead of setting it
to the trimmed empty string. -/
theorem updateTodo_empty_text_counterexample :
    emptyTextUpdates.text = some ("")
    ∧ (updateTodo [tA] ("a") emptyTextUpdates 2).map Todo.text = [tA.text]
    ∧ (updateTodo [tA] ("a") emptyTextUpdates 2).map Todo.text ≠ [jsTrim ("")] := by
  refine ⟨rfl, by decide, by decide⟩

/-- C5 (amended): for a partial-fields object whose `text` field is present
and non-empty, `updateTodo` sets the matched record's text to the trimmed
text and refreshes its `updatedAt`, and every record whose id does not match
is returned unchanged (in particular `updatedAt` is refreshed on matched
entries only).  A present empty-string text leaves the old text in place. -/
theorem updateTodo_text_update (l : List Todo) (id : String) (u : Updates) (now : Nat)
    (s : String) (hu : u.text = some s) (hs : s ≠ "") :
    (updateTodo l id u now).length = l.length
    ∧ ∀ i (hi : i < l.length) (hi' : i < (updateTodo l id u now).length),
        (l[i].id = id →
          (updateTodo l id u now)[i].text = jsTrim s
          ∧ (updateTodo l id u now)[i].updatedAt = now)
        ∧ (l[i].id ≠ id → (updateTodo l id u now)[i] = l[i]) := by
  constructor
  · unfold updateTodo
    exact List.length_map l _
  · intro i hi hi'
    have hmap : (updateTodo l id u now)[i] =
        if l[i].id = id then applyUpdates l[i] u now else l[i] := by
      unfold updateTodo at hi' ⊢
      exact List.getElem_map _
    constructor
    · intro hid
      rw [hmap, if_pos hid]
      constructor
      · simp [applyUpdates, hu, hs]
      · rfl
    · intro hid
      rw [hmap, if_neg hid]

/-- Witness for C5 (amended) at a concrete input. -/
theorem updateTodo_text_update_witness :
    ((updateTodo [tA] ("a") spaceTextUpdates 9).get ⟨0, by decide⟩).text = jsTrim ("  milk  ")
    ∧ ((updateTodo [tA] ("a") spaceTextUpdates 9).get ⟨0, by decide⟩).updatedAt = 9 :=
  ((updateTodo_text_update [tA] ("a") spaceTextUpdates 9 ("  milk  ") rfl (by decide)).2
    0 (by decide) (by decide)).1 (by decide)

/-- C2 counterexample: `importTodos` stamps `updatedAt: new Date()` on every
imported record, so the round trip does not preserve `updatedAt`: a
well-formed record exported with `updatedAt = 5` comes back with
`updatedAt = 9` when imported at time 9. -/
theorem import_export_updatedAt_counterexample :
    tOld.updatedAt = 5
    ∧ (importTodos (exportTodos [tOld]) (fun _ => "f") 9).map Todo.updatedAt = [9]
    ∧ (importTodos (exportTodos [tOld]) (fun _ => "f") 9).map Todo.updatedAt ≠
        [tOld].map Todo.updatedAt := by
  refine ⟨rfl, by decide, by decide⟩

/-- C2 (amended): for a list of well-formed records (non-empty text and
non-empty id), importing the export of the list yields exactly the original
records with `updatedAt` refreshed to the import time: id, text, category,
priority, `createdAt`, `dueDate` (and `completed`, `tags`, `description`)
are all preserved and no fresh id is drawn; `updatedAt` alone changes. -/
theorem import_export_roundtrip :
    ∀ (l : List Todo) (freshIds : Nat → String) (now : Nat),
      (∀ t ∈ l, t.text ≠ "" ∧ t.id ≠ "") →
      importTodos (exportTodos l) freshIds now = l.map (fun t => { t with updatedAt := now }) := by
  intro l
  induction l with
  | nil =>
      intro freshIds now h
      rfl
  | cons t rest ih =>
      intro freshIds now h
      have ht := h t (List.mem_cons_self t rest)
      have hrest : ∀ x ∈ rest, x.text ≠ "" ∧ x.id ≠ "" :=
        fun x hx => h x (List.mem_cons_of_mem t hx)
      have htruthy : rawTextTruthy (Todo.toRaw t) = true := by
        simp [rawTextTruthy, Todo.toRaw, ht.1]
      show importTodos (Todo.toRaw t :: exportTodos rest) freshIds now = _
      rw [importTodos, if_pos htruthy]
      rw [List.map_cons]
      congr 1
      · cases t with
        | mk id text completed category priority createdAt updatedAt dueDate tags description =>
            simp only [normalizeImported, Todo.toRaw, Option.getD_some]
            rw [if_neg ht.2]
      · exact ih (fun i => freshIds (i + 1)) now hrest

/-- Witness for C2 (amended) at a concrete input. -/
theorem import_export_roundtrip_witness :
    importTodos (exportTodos [tOld]) (fun _ => "f") 9 = [{ tOld with updatedAt := 9 }] :=
  import_export_roundtrip [tOld] (fun _ => "f") 9 (by decide)

/-- C7: statistics satisfy `total = completed + active`, the completion rate
lies within `[0, 100]` and is `0` for the empty collection, and for a
non-empty collection it equals the half-up rounding of
`100 * completed / total` as a rational number. -/
theorem getTodoStats_invariants (l : List Todo) (now : Nat) :
    (getTodoStats l now).total = (getTodoStats l now).completed + (getTodoStats l now).active
    ∧ (getTodoStats l now).completionRate ≤ 100
    ∧ ((getTodoStats l now).total = 0 → (getTodoStats l now).completionRate = 0)
    ∧ (0 < (getTodoStats l now).total →
        ((getTodoStats l now).completionRate : ℤ) =
          round (((getTodoStats l now).completed : ℚ) * 100 / ((getTodoStats l now).total : ℚ))) := by
  have hct : (l.filter (fun todo => todo.completed)).length ≤ l.length :=
    List.length_filter_le _ l
  have htotal : (getTodoStats l now).total = l.length := rfl
  have hcompleted : (getTodoStats l now).completed = (l.filter (fun todo => todo.completed)).length :=
    rfl
  have hactive : (getTodoStats l now).active =
      l.length - (l.filter (fun todo => todo.completed)).length := rfl
  have hrate : (getTodoStats l now).completionRate =
      if 0 < l.length then
        (200 * (l.filter (fun todo => todo.completed)).length + l.length) / (2 * l.length)
      else 0 := rfl
  refine ⟨?_, ?_, ?_, ?_⟩
  · rw [htotal, hcompleted, hactive]
    omega
  · rw [hrate]
    by_cases ht : 0 < l.length
    · rw [if_pos ht]
      have hlt : (200 * (l.filter (fun todo => todo.completed)).length + l.length) /
          (2 * l.length) < 101 := by
        rw [Nat.div_lt_iff_lt_mul (by omega : 0 < 2 * l.length)]
        omega
      omega
    · rw [if_neg ht]
      omega
  · intro h0
    rw [hrate]
    rw [htotal] at h0
    rw [if_neg (by omega)]
  · intro ht
    rw [htotal] at ht
    rw [htotal, hcompleted, hrate, if_pos ht]
    have hq : ((l.filter (fun todo => todo.completed)).length : ℚ) * 100 / (l.length : ℚ) + 1 / 2 =
        (((200 * (l.filter (fun todo => todo.completed)).length + l.length : ℕ)) : ℚ) /
          (((2 * l.length : ℕ)) : ℚ) := by
      have hlq : (l.length : ℚ) ≠ 0 := by
        exact_mod_cast Nat.pos_iff_ne_zero.mp ht
      push_cast
      field_simp
      ring
    rw [round_eq, hq, ← Nat.floor_div_eq_div (α := ℚ)]
    exact Int.natCast_floor_eq_floor (by positivity)

/-- Witness for C7 on the three-record sample with one completed record:
the completion rate is the rounding of 100/3, namely 33. -/
theorem getTodoStats_invariants_witness :
    ((getTodoStats sample3 0).completionRate : ℤ) =
      round (((getTodoStats sample3 0).completed : ℚ) * 100 / ((getTodoStats sample3 0).total : ℚ))
    ∧ (getTodoStats sample3 0).completionRate = 33
    ∧ (getTodoStats sample3 0).total = 3
    ∧ (getTodoStats sample3 0).completed = 1 :=
  ⟨(getTodoStats_invariants sample3 0).2.2.2 (by decide), by decide, by decide, by decide⟩

/-- Helper: the JS comparator value is antisymmetric under `Ordering.swap`. -/
theorem jsCompare_swap {α : Type} [LinearOrder α] (a b : α) :
    (jsCompare a b).swap = jsCompare b a := by
  rcases lt_trichotomy a b with h | rfl | h
  · simp [jsCompare, h, asymm h, Ordering.swap]
  · simp [jsCompare, lt_irrefl, Ordering.swap]
  · simp [jsCompare, h, asymm h, Ordering.swap]

/-- Helper: a non-positive JS comparison means less-or-equal. -/
theorem jsCompare_ne_gt {α : Type} [LinearOrder α] {a b : α} :
    jsCompare a b ≠ Ordering.gt ↔ a ≤ b := by
  unfold jsCompare
  split_ifs with h1 h2
  · exact iff_of_false (by simp) (not_le.mpr h1)
  · exact iff_of_true (by simp) (le_of_lt h2)
  · exact iff_of_true (by simp) (not_lt.mp h1)

/-- Helper: a zero JS comparison means equal values. -/
theorem jsCompare_eq_iff {α : Type} [LinearOrder α] {a b : α} :
    jsCompare a b = Ordering.eq ↔ a = b := by
  unfold jsCompare
  split_ifs with h1 h2
  · exact iff_of_false (by simp) h1.ne'
  · exact iff_of_false (by simp) h2.ne
  · exact iff_of_true rfl (le_antisymm (not_lt.mp h1) (not_lt.mp h2))

/-- Helper: the ascending todo comparison is antisymmetric under swap. -/
theorem todoCompareAsc_swap (sortBy : String) (a b : Todo) :
    (todoCompareAsc sortBy a b).swap = todoCompareAsc sortBy b a := by
  unfold todoCompareAsc
  split_ifs <;> apply jsCompare_swap

/-- Helper: non-positive ascending comparisons compose transitively. -/
theorem todoCompareAsc_ne_gt_trans (sortBy : String) {a b c : Todo}
    (h1 : todoCompareAsc sortBy a b ≠ Ordering.gt)
    (h2 : todoCompareAsc sortBy b c ≠ Ordering.gt) :
    todoCompareAsc sortBy a c ≠ Ordering.gt := by
  unfold todoCompareAsc at h1 h2 ⊢
  split_ifs at h1 h2 ⊢ <;>
    · rw [jsCompare_ne_gt] at h1 h2 ⊢
      exact le_trans h1 h2

/-- Helper: equality of sort keys is transitive. -/
theorem todoCompareAsc_eq_trans (sortBy : String) {a b c : Todo}
    (h1 : todoCompareAsc sortBy a b = Ordering.eq)
    (h2 : todoCompareAsc sortBy b c = Ordering.eq) :
    todoCompareAsc sortBy a c = Ordering.eq := by
  unfold todoCompareAsc at h1 h2 ⊢
  split_ifs at h1 h2 ⊢ <;>
    · rw [jsCompare_eq_iff] at h1 h2 ⊢
      exact h1.trans h2

/-- Helper: equality of sort keys is symmetric. -/
theorem todoCompareAsc_eq_symm (sortBy : String) {a b : Todo}
    (h : todoCompareAsc sortBy a b = Ordering.eq) :
    todoCompareAsc sortBy b a = Ordering.eq := by
  rw [← todoCompareAsc_swap, h]
  rfl

/-- Helper: the ascending comparison is total. -/
theorem todoCompareAsc_ne_gt_total (sortBy : String) (a b : Todo) :
    todoCompareAsc sortBy a b ≠ Ordering.gt ∨ todoCompareAsc sortBy b a ≠ Ordering.gt := by
  unfold todoCompareAsc
  split_ifs <;>
    · rw [jsCompare_ne_gt, jsCompare_ne_gt]
      exact le_total _ _

/-- Helper: `sortLe` reduces to the ascending comparison in both orders. -/
theorem sortLe_iff (sortBy order : String) (a b : Todo) :
    sortLe sortBy order a b ↔
      (if order = "asc" then todoCompareAsc sortBy a b ≠ Ordering.gt
       else todoCompareAsc sortBy b a ≠ Ordering.gt) := by
  unfold sortLe todoComparator
  split_ifs with h
  · exact Iff.rfl
  · rw [← todoCompareAsc_swap sortBy b a, Ordering.swap_swap]

/-- Helper: `sortLe` is transitive. -/
theorem sortLe_trans (sortBy order : String) {a b c : Todo}
    (h1 : sortLe sortBy order a b) (h2 : sortLe sortBy order b c) :
    sortLe sortBy order a c := by
  rw [sortLe_iff] at h1 h2 ⊢
  split_ifs at h1 h2 ⊢
  · exact todoCompareAsc_ne_gt_trans sortBy h1 h2
  · exact todoCompareAsc_ne_gt_trans sortBy h2 h1

/-- Helper: `sortLe` is total. -/
theorem sortLe_total (sortBy order : String) (a b : Todo) :
    sortLe sortBy order a b ∨ sortLe sortBy order b a := by
  rw [sortLe_iff, sortLe_iff]
  split_ifs
  · exact todoCompareAsc_ne_gt_total sortBy a b
  · exact todoCompareAsc_ne_gt_total sortBy b a

/-- Helper: equal sort keys relate both ways under `sortLe`. -/
theorem sortLe_of_eq (sortBy order : String) {a b : Todo}
    (h : todoCompareAsc sortBy a b = Ordering.eq) : sortLe sortBy order a b := by
  rw [sortLe_iff]
  split_ifs
  · rw [h]
    decide
  · rw [todoCompareAsc_eq_symm sortBy h]
    decide

/-- Helper: `orderedInsert` commutes with filtering by a predicate whose
elements all lie below the inserted element. -/
theorem filter_orderedInsert {α : Type} (r : α → α → Prop) [DecidableRel r] (p : α → Bool)
    (a : α) (l : List α) (h : ∀ b ∈ l, p a = true → p b = true → r a b) :
    (l.orderedInsert r a).filter p = if p a then a :: l.filter p else l.filter p := by
  induction l with
  | nil =>
      cases hpa : p a <;> simp [List.orderedInsert, hpa]
  | cons b l ih =>
      by_cases hr : r a b
      · rw [List.orderedInsert, if_pos hr]
        cases hpa : p a <;> simp [List.filter_cons, hpa]
      · rw [List.orderedInsert, if_neg hr]
        have hrec := ih (fun x hx => h x (List.mem_cons_of_mem b hx))
        cases hpa : p a with
        | false => simp [List.filter_cons, hpa, hrec]
        | true =>
            have hpb : p b = false := by
              cases hpbv : p b
              · rfl
              · exact absurd (h b (List.mem_cons_self b l) hpa hpbv) hr
            simp [List.filter_cons, hpa, hpb, hrec]

/-- Helper: insertion sort preserves the subsequence of elements selected by
a predicate whose elements are pairwise related (stability). -/
theorem filter_insertionSort {α : Type} (r : α → α → Prop) [DecidableRel r] (p : α → Bool)
    (h : ∀ a b, p a = true → p b = true → r a b) (l : List α) :
    (l.insertionSort r).filter p = l.filter p := by
  induction l with
  | nil => rfl
  | cons a l ih =>
      rw [List.insertionSort, filter_orderedInsert r p a _ (fun b hb => h a b)]
      cases hpa : p a <;> simp [List.filter_cons, hpa, ih]

/-- C8: `sortTodos` is stable.  First conjunct: for every key value (the
equivalence class of an arbitrary record `v` under the sort key), the
subsequence of records whose key compares equal to it is the same before and
after sorting, i.e. records with equal sort keys keep their original
relative order.  Second conjunct: sorting an already-sorted list (in
particular the output of the same sort) returns an identical order. -/
theorem sortTodos_stable (l : List Todo) (sortBy order : String) (v : Todo) :
    (sortTodos l sortBy order).filter
        (fun t => decide (todoCompareAsc sortBy t v = Ordering.eq)) =
      l.filter (fun t => decide (todoCompareAsc sortBy t v = Ordering.eq))
    ∧ sortTodos (sortTodos l sortBy order) sortBy order = sortTodos l sortBy order := by
  constructor
  · unfold sortTodos
    apply filter_insertionSort
    intro a b ha hb
    have ha' := of_decide_eq_true ha
    have hb' := of_decide_eq_true hb
    exact sortLe_of_eq sortBy order
      (todoCompareAsc_eq_trans sortBy ha' (todoCompareAsc_eq_symm sortBy hb'))
  · unfold sortTodos
    haveI : IsTotal Todo (sortLe sortBy order) := ⟨sortLe_total sortBy order⟩
    haveI : IsTrans Todo (sortLe sortBy order) :=
      ⟨fun a b c h1 h2 => sortLe_trans sortBy order h1 h2⟩
    exact List.Sorted.insertionSort_eq (List.sorted_insertionSort (sortLe sortBy order) l)
